import Mathlib

/-!
Verification development for the `web_server` repository (`src/server.rs`).

The source is a small threaded HTTP server: a `Server` holds a listener, a
thread pool and a vector of `Endpoint`s (path + precomputed `Response`).
`run` accepts connections, reads and parses the request line, looks up the
endpoint, and submits the response write to the pool.  We embed the pure
content of each function; partial operations that `unwrap`/`expect` (and so
can panic) are modelled with `Option`, `none` standing for a panic.
-/

namespace WebServer

/-! ## Character and string primitives

`rustIsWhitespace` embeds Rust's `char::is_whitespace` (Unicode `White_Space`
property), used by `str::split_whitespace` in `Server::read_stream`. -/

def rustIsWhitespace (c : Char) : Bool :=
  c = ' ' || c = '\t' || c = '\n' || c = '\x0b' || c = '\x0c' || c = '\r' ||
  c.toNat = 0x85 || c.toNat = 0xa0 || c.toNat = 0x1680 ||
  (0x2000 ≤ c.toNat && c.toNat ≤ 0x200a) ||
  c.toNat = 0x2028 || c.toNat = 0x2029 || c.toNat = 0x202f ||
  c.toNat = 0x205f || c.toNat = 0x3000

/-- Helper for `splitWhitespace`: `acc` is the current (reversed) token. -/
def splitWsAux : List Char → List Char → List (List Char)
  | [], acc => if acc.isEmpty then [] else [acc.reverse]
  | c :: cs, acc =>
    if rustIsWhitespace c then
      if acc.isEmpty then splitWsAux cs [] else acc.reverse :: splitWsAux cs []
    else splitWsAux cs (c :: acc)

/-- Embeds Rust's `str::split_whitespace`: maximal runs of non-whitespace
characters, with leading/trailing/repeated whitespace discarded. -/
def splitWhitespace (s : String) : List String :=
  (splitWsAux s.data []).map fun l => ⟨l⟩

/-- Byte length of a character sequence under UTF-8; embeds Rust's
`String::len` (which counts bytes, not characters). -/
def bytesLen : List Char → Nat
  | [] => 0
  | c :: cs => c.utf8Size + bytesLen cs

/-- The decimal digit character for `d` (`d ≥ 9` gives `'9'`; callers pass
`d < 10`). -/
def digitChar : Nat → Char
  | 0 => '0' | 1 => '1' | 2 => '2' | 3 => '3' | 4 => '4'
  | 5 => '5' | 6 => '6' | 7 => '7' | 8 => '8' | _ => '9'

/-- Fuel-driven accumulator loop producing the decimal digits of `n`
(most significant first, prepended to `acc`). -/
def natDigitsAux : Nat → Nat → List Char → List Char
  | 0, _, acc => acc
  | _ + 1, 0, acc => acc
  | fuel + 1, n + 1, acc =>
    natDigitsAux fuel ((n + 1) / 10) (digitChar ((n + 1) % 10) :: acc)

/-- Decimal rendering of a natural number; embeds the decimal formatting the
Rust `format!` macro applies to `body.len()` in `Server::send_response`. -/
def natToString (n : Nat) : String :=
  if n = 0 then "0" else ⟨natDigitsAux n n []⟩

/-! ## Data model from `src/server.rs` -/

inductive HttpMethod
  | GET
  | POST
  | PUT
  | DELETE
deriving DecidableEq, Repr

structure Request where
  method : HttpMethod
  path : String
  protocol : String
  body : String
deriving DecidableEq, Repr

inductive StatusCode
  | Ok
  | BadRequest
  | NotFound
  | InternalServerError
deriving DecidableEq, Repr

/-- The numeric discriminant of each `StatusCode` variant (`Ok = 200`, …). -/
def StatusCode.code : StatusCode → Nat
  | .Ok => 200
  | .BadRequest => 400
  | .NotFound => 404
  | .InternalServerError => 500

/-- Embeds `impl Display for StatusCode`. -/
def StatusCode.display : StatusCode → String
  | .Ok => "200 OK"
  | .BadRequest => "400 Bad Request"
  | .NotFound => "404 Not Found"
  | .InternalServerError => "500 Internal Server Error"

structure Response where
  protocol : String
  status_code : StatusCode
  body : String
deriving DecidableEq, Repr

structure Endpoint where
  path : String
  handler : Response
deriving DecidableEq, Repr

/-- The file-read collaborator (`fs::read_to_string`): `none` is a read
error. -/
abbrev FS := String → Option String

/-- The route-table part of `Server` (listener and pool carry no routing
state). -/
structure Server where
  endpoints : List Endpoint
deriving DecidableEq, Repr

/-- Embeds `Server::find_endpoint`: first endpoint whose path matches,
else `None`. -/
def find_endpoint (endpoints : List Endpoint) (path : String) : Option Response :=
  match endpoints with
  | [] => none
  | e :: rest => if path = e.path then some e.handler else find_endpoint rest path

/-- Embeds `Server::read_stream` on the first line of the stream.  Returns
the parsed `Request` together with the warnings printed to stderr; `none`
models the `parts.next().unwrap()` panic when the line has no tokens. -/
def read_stream (first_line : String) : Option (Request × List String) :=
  match splitWhitespace first_line with
  | [] => none
  | t :: rest =>
    let m : Option HttpMethod :=
      if t = "GET" then some HttpMethod.GET
      else if t = "POST" then some HttpMethod.POST
      else if t = "PUT" then some HttpMethod.PUT
      else if t = "DELETE" then some HttpMethod.DELETE
      else none
    let methodLog : HttpMethod × List String :=
      match m with
      | some mm => (mm, [])
      | none => (HttpMethod.GET, ["Invalid HTTP method"])
    let pathLog : String × List String :=
      match rest[0]? with
      | some p => (p, [])
      | none => ("/", ["Invalid path"])
    let protocolLog : String × List String :=
      match rest[1]? with
      | some pr => (pr, [])
      | none => ("HTTP/1.1", ["Invalid protocol"])
    some ({ method := methodLog.1, path := pathLog.1, protocol := protocolLog.1,
            body := " " },
          methodLog.2 ++ pathLog.2 ++ protocolLog.2)

/-- Embeds `Server::send_response`: the exact buffer written to the stream,
`format!("{protocol} {status_code}\r\nContent-Length: {length}\r\n\r\n{body}")`
with `length = body.len()` (bytes). -/
def send_response (response : Response) : String :=
  response.protocol ++ " " ++ response.status_code.display ++
    "\r\nContent-Length: " ++ natToString (bytesLen response.body.data) ++
    "\r\n\r\n" ++ response.body

/-- Embeds `Server::html_response`: read `file_name`; on failure read
`"unknown.html"` instead, whose failure is an `unwrap` panic (`none`). -/
def html_response (fs : FS) (file_name : String) : Option Response :=
  match fs file_name with
  | some contents =>
    some { protocol := "HTTP/1.1", status_code := StatusCode.Ok, body := contents }
  | none =>
    match fs "unknown.html" with
    | some contents =>
      some { protocol := "HTTP/1.1", status_code := StatusCode.Ok, body := contents }
    | none => none

/-- Embeds `Endpoint::default`: path `"/"` with the `unknown.html` response,
built by a fresh `html_response` call at the point of use. -/
def Endpoint.default (fs : FS) : Option Endpoint :=
  match html_response fs "unknown.html" with
  | some r => some { path := "/", handler := r }
  | none => none

/-- Embeds `Server::add_endpoint`: push the new endpoint at the end. -/
def add_endpoint (s : Server) (path : String) (handler : Response) : Server :=
  { endpoints := s.endpoints ++ [{ path := path, handler := handler }] }

/-- Embeds `Server::add_get_endpoint`: register `path` with the response
built from `file_name` at registration time. -/
def add_get_endpoint (fs : FS) (s : Server) (path file_name : String) :
    Option Server :=
  match html_response fs file_name with
  | some r => some (add_endpoint s path r)
  | none => none

/-- The portion of one iteration of `Server::run` executed on the listener
thread itself, before `pool.execute`: accept (given), `read_stream`,
`find_endpoint`, and on a miss the `Endpoint::default()` fallback.  Returns
the handler captured by the closure passed to the pool, with the log lines
printed so far; `none` models a panic on the listener thread. -/
def run_listener_phase (fs : FS) (s : Server) (first_line : String) :
    Option (Response × List String) :=
  match read_stream first_line with
  | none => none
  | some (req, logs) =>
    match find_endpoint s.endpoints req.path with
    | some h => some (h, logs)
    | none =>
      match Endpoint.default fs with
      | some e => some (e.handler, logs ++ ["No handler found for path: " ++ req.path])
      | none => none

/-- The job the closure submitted to the pool performs: just
`Server::send_response` on the captured handler. -/
def worker_job (handler : Response) : String :=
  send_response handler

/-- One complete dispatch of a connection whose first line is `first_line`:
the bytes written back and the log lines emitted.  `none` models a panic. -/
def dispatchResult (fs : FS) (s : Server) (first_line : String) :
    Option (String × List String) :=
  match read_stream first_line with
  | none => none
  | some (req, logs) =>
    match find_endpoint s.endpoints req.path with
    | some h => some (send_response h, logs)
    | none =>
      match Endpoint.default fs with
      | some e =>
        some (send_response e.handler,
              logs ++ ["No handler found for path: " ++ req.path])
      | none => none

/-- The bytes written back for one dispatched connection. -/
def dispatch_output (fs : FS) (s : Server) (first_line : String) : Option String :=
  match dispatchResult fs s first_line with
  | some (out, _) => some out
  | none => none

/-- Embeds the accept loop of `Server::run` over a finite schedule of accept
results (`none` = accept error, `some line` = a connection whose first line
is `line`).  `stream.expect("Error reading stream")` makes any accept error
a panic, so the whole loop aborts (`none`). -/
def run (fs : FS) (s : Server) : List (Option String) → Option (List String)
  | [] => some []
  | none :: _ => none
  | some line :: rest =>
    match dispatch_output fs s line with
    | none => none
    | some out =>
      match run fs s rest with
      | none => none
      | some outs => some (out :: outs)

/-! ## Worker pool

Modelled from the spec: the `ThreadPool` implementation is not under `src/`
(`server.rs` only imports `crate::ThreadPool` and calls `ThreadPool::new(4)`
and `pool.execute`).  Per the spec, `Construct(size)` requires `size ≥ 1`,
fails with a `PoolConfigurationError` otherwise (no clamping, no crash), and
on success starts exactly `size` workers. -/

inductive PoolError
  | PoolConfigurationError
deriving DecidableEq, Repr

structure ThreadPool where
  workers : List Nat
deriving DecidableEq, Repr

/-- Modelled from the spec: pool construction; `workers` records the ids of
the threads started. -/
def ThreadPool.new (size : Nat) : Except PoolError ThreadPool :=
  if size < 1 then Except.error PoolError.PoolConfigurationError
  else Except.ok { workers := List.range size }

end WebServer

namespace WebServer

/-! ## Tokenization lemmas -/

theorem splitWsAux_skip (p : List Char) : ∀ (rest acc : List Char),
    (∀ c ∈ p, rustIsWhitespace c = false) →
    splitWsAux (p ++ rest) acc = splitWsAux rest (p.reverse ++ acc) := by
  induction p with
  | nil => intro rest acc _; simp
  | cons c p ih =>
    intro rest acc h
    have hc : rustIsWhitespace c = false := h c (List.mem_cons_self _ _)
    have hp : ∀ x ∈ p, rustIsWhitespace x = false :=
      fun x hx => h x (List.mem_cons_of_mem _ hx)
    simp only [List.cons_append, splitWsAux, hc, Bool.false_eq_true, if_false]
    simpa using ih rest (c :: acc) hp

theorem splitWsAux_break (c : Char) (rest acc : List Char)
    (hc : rustIsWhitespace c = true) (ha : acc ≠ []) :
    splitWsAux (c :: rest) acc = acc.reverse :: splitWsAux rest [] := by
  have hne : acc.isEmpty = false := by
    cases acc with
    | nil => exact absurd rfl ha
    | cons x xs => rfl
  simp [splitWsAux, hc, hne]

theorem data_ne_nil_of_ne_empty (p : String) (hp : p ≠ "") : p.data ≠ [] := by
  intro hd
  apply hp
  cases p
  simp_all

/-- Tokenizing a well-formed `GET` request line around a nonempty,
whitespace-free path gives exactly the three expected tokens. -/
theorem splitWhitespace_request (p : String) (hp : p ≠ "")
    (hws : ∀ ch ∈ p.data, rustIsWhitespace ch = false) :
    splitWhitespace ("GET " ++ p ++ " HTTP/1.1") = ["GET", p, "HTTP/1.1"] := by
  have hpd : p.data ≠ [] := data_ne_nil_of_ne_empty p hp
  unfold splitWhitespace
  have hdata : ("GET " ++ p ++ " HTTP/1.1").data
      = ['G', 'E', 'T'] ++ (' ' :: (p.data ++ (' ' :: "HTTP/1.1".data))) := by
    rw [String.data_append, String.data_append]
    show ['G', 'E', 'T', ' '] ++ p.data ++ (' ' :: "HTTP/1.1".data) = _
    simp
  rw [hdata]
  rw [splitWsAux_skip _ _ _ (by decide)]
  rw [splitWsAux_break _ _ _ (by decide) (by simp)]
  rw [splitWsAux_skip _ _ _ hws]
  rw [splitWsAux_break _ _ _ (by decide) (by simp [hpd])]
  rw [(by decide : splitWsAux "HTTP/1.1".data [] = ["HTTP/1.1".data])]
  simp

end WebServer

namespace WebServer

/-! ## Route table and parsing lemmas -/

theorem find_endpoint_append_none (es : List Endpoint) (e : Endpoint) (q : String)
    (h : find_endpoint es q = none) :
    find_endpoint (es ++ [e]) q = if q = e.path then some e.handler else none := by
  induction es with
  | nil => simp [find_endpoint]
  | cons a es ih =>
    simp only [find_endpoint, List.cons_append] at h ⊢
    by_cases hq : q = a.path
    · simp [hq] at h
    · simp only [hq, if_false] at h ⊢
      exact ih h

/-- Parsing a canonical `GET` request line: recognized method, path and
protocol present, no warnings. -/
theorem read_stream_get (line p : String)
    (h : splitWhitespace line = ["GET", p, "HTTP/1.1"]) :
    read_stream line
      = some ({ method := HttpMethod.GET, path := p, protocol := "HTTP/1.1",
                body := " " }, []) := by
  simp [read_stream, h]

end WebServer

namespace WebServer

/-- Concrete file system for witnesses: `hello.html` holds `"Hello"` and the
fallback file `unknown.html` holds `"unknown"`. -/
def fsHello : FS := fun n =>
  if n = "hello.html" then some "Hello"
  else if n = "unknown.html" then some "unknown" else none

/-- The server obtained by registering `/` from `hello.html` under
`fsHello`. -/
def serverHello : Server :=
  ⟨[⟨"/", ⟨"HTTP/1.1", StatusCode.Ok, "Hello"⟩⟩]⟩

/-- Claim C1: for every path `P` registered via `add_get_endpoint` with
frozen file content `C`, dispatching `GET P HTTP/1.1` produces a response
whose body equals `C` and whose `Content-Length` equals the byte length of
`C`: the bytes written are exactly
`"HTTP/1.1 200 OK\r\nContent-Length: {byteLen C}\r\n\r\n{C}"`. -/
theorem C1_registered_get (fs : FS) (s0 s1 : Server) (p file c : String)
    (hp : p ≠ "") (hws : ∀ ch ∈ p.data, rustIsWhitespace ch = false)
    (hfile : fs file = some c)
    (hfresh : find_endpoint s0.endpoints p = none)
    (hreg : add_get_endpoint fs s0 p file = some s1) :
    dispatch_output fs s1 ("GET " ++ p ++ " HTTP/1.1")
      = some ("HTTP/1.1 200 OK\r\nContent-Length: "
          ++ natToString (bytesLen c.data) ++ "\r\n\r\n" ++ c) := by
  simp only [add_get_endpoint, html_response, hfile] at hreg
  have hs1 : s1 = add_endpoint s0 p
      { protocol := "HTTP/1.1", status_code := StatusCode.Ok, body := c } := by
    cases hreg
    rfl
  subst hs1
  unfold dispatch_output dispatchResult
  rw [read_stream_get _ _ (splitWhitespace_request p hp hws)]
  simp only [add_endpoint]
  rw [find_endpoint_append_none _ _ _ hfresh]
  simp only [if_pos rfl]
  rfl

/-- Witness for C1: the spec's concrete scenario.  Registering `/` with file
content `"Hello"` and sending `GET / HTTP/1.1` yields exactly the bytes
`HTTP/1.1 200 OK\r\nContent-Length: 5\r\n\r\nHello`. -/
theorem C1_registered_get_witness :
    dispatch_output fsHello serverHello "GET / HTTP/1.1"
      = some "HTTP/1.1 200 OK\r\nContent-Length: 5\r\n\r\nHello" := by
  have h := C1_registered_get fsHello { endpoints := [] } serverHello
    "/" "hello.html" "Hello" (by decide) (by decide) rfl rfl (by decide)
  exact h.trans (by decide)

end WebServer

namespace WebServer

/-! ## Re-parsing the wire format (for the round-trip property)

`findSplit pat cs` splits `cs` at the first occurrence of `pat`, returning
the part before and the part after the occurrence. -/

def findSplit (pat : List Char) : List Char → Option (List Char × List Char)
  | [] => none
  | c :: cs =>
    if (c :: cs).take pat.length = pat then some ([], (c :: cs).drop pat.length)
    else (findSplit pat cs).map fun pr => (c :: pr.1, pr.2)

/-- Value of a decimal digit string (most significant first). -/
def digitsVal (cs : List Char) : Nat :=
  cs.foldl (fun a c => a * 10 + (c.toNat - 48)) 0

/-- Parse a nonempty all-digit character sequence as a decimal number. -/
def parseDigits (cs : List Char) : Option Nat :=
  if cs.isEmpty then none
  else if cs.all Char.isDigit then some (digitsVal cs) else none

/-- Take the first `n` bytes (in UTF-8 measure) of a character sequence. -/
def takeBytes : Nat → List Char → List Char
  | _, [] => []
  | n, c :: cs =>
    if 0 < n ∧ c.utf8Size ≤ n then c :: takeBytes (n - c.utf8Size) cs else []

/-- Extract the `Content-Length` value of a written response: split at the
first blank line, take the second header line, strip `Content-Length: `,
parse the decimal digits. -/
def contentLengthOf (out : String) : Option Nat :=
  match findSplit ['\r', '\n', '\r', '\n'] out.data with
  | none => none
  | some (header, _) =>
    match findSplit ['\r', '\n'] header with
    | none => none
    | some (_, line2) =>
      if line2.take "Content-Length: ".data.length = "Content-Length: ".data
      then parseDigits (line2.drop "Content-Length: ".data.length)
      else none

/-- Re-parse a written response: read `Content-Length`, then take exactly
that many bytes after the first blank line. -/
def reparse (out : String) : Option String :=
  match findSplit ['\r', '\n', '\r', '\n'] out.data, contentLengthOf out with
  | some (_, rest), some n => some ⟨takeBytes n rest⟩
  | _, _ => none

/-! ## Decimal digit lemmas -/

theorem digitChar_isDigit (d : Nat) : (digitChar d).isDigit = true := by
  rcases d with _|_|_|_|_|_|_|_|_|d <;> rfl

theorem digitChar_toNat (d : Nat) (h : d < 10) : (digitChar d).toNat = 48 + d := by
  interval_cases d <;> rfl

theorem natDigitsAux_zero (fuel : Nat) (acc : List Char) :
    natDigitsAux fuel 0 acc = acc := by
  cases fuel <;> rfl

theorem natDigitsAux_acc (fuel : Nat) : ∀ n acc,
    natDigitsAux fuel n acc = natDigitsAux fuel n [] ++ acc := by
  induction fuel with
  | zero => intro n acc; simp [natDigitsAux]
  | succ fuel ih =>
    intro n acc
    cases n with
    | zero => simp [natDigitsAux]
    | succ m =>
      simp only [natDigitsAux]
      rw [ih ((m + 1) / 10) (digitChar ((m + 1) % 10) :: acc),
          ih ((m + 1) / 10) [digitChar ((m + 1) % 10)]]
      simp

theorem digitsVal_append_single (xs : List Char) (c : Char) :
    digitsVal (xs ++ [c]) = digitsVal xs * 10 + (c.toNat - 48) := by
  unfold digitsVal
  rw [List.foldl_append]
  rfl

theorem digitsVal_natDigitsAux (n : Nat) : 0 < n → ∀ fuel, n ≤ fuel →
    digitsVal (natDigitsAux fuel n []) = n := by
  induction n using Nat.strong_induction_on with
  | _ n ih =>
    intro hn fuel hfuel
    match fuel, n with
    | 0, n => omega
    | f + 1, 0 => omega
    | f + 1, m + 1 =>
      simp only [natDigitsAux]
      by_cases hq : (m + 1) / 10 = 0
      · rw [hq, natDigitsAux_zero]
        have hlt : (m + 1) % 10 < 10 := Nat.mod_lt _ (by norm_num)
        have : digitsVal [digitChar ((m + 1) % 10)] = (m + 1) % 10 := by
          unfold digitsVal
          simp [digitChar_toNat _ hlt]
        rw [this]
        omega
      · have hqlt : (m + 1) / 10 < m + 1 := Nat.div_lt_self (Nat.succ_pos m) (by norm_num)
        have hqf : (m + 1) / 10 ≤ f := by omega
        rw [natDigitsAux_acc, digitsVal_append_single,
            ih ((m + 1) / 10) hqlt (Nat.pos_of_ne_zero hq) f hqf,
            digitChar_toNat _ (Nat.mod_lt _ (by norm_num))]
        omega

theorem natDigitsAux_digits (fuel : Nat) : ∀ n acc,
    (∀ c ∈ acc, c.isDigit = true) →
    ∀ c ∈ natDigitsAux fuel n acc, c.isDigit = true := by
  induction fuel with
  | zero => intro n acc hacc; simpa [natDigitsAux] using hacc
  | succ fuel ih =>
    intro n acc hacc
    cases n with
    | zero => simpa [natDigitsAux] using hacc
    | succ m =>
      simp only [natDigitsAux]
      apply ih
      intro c hc
      rcases List.mem_cons.mp hc with h | h
      · rw [h]; exact digitChar_isDigit _
      · exact hacc c h

theorem natToString_all_digits (n : Nat) :
    ∀ c ∈ (natToString n).data, c.isDigit = true := by
  by_cases h : n = 0
  · subst h
    intro c hc
    rw [show (natToString 0).data = ['0'] from rfl] at hc
    rcases List.mem_singleton.mp hc with rfl
    rfl
  · unfold natToString
    simp only [if_neg h]
    exact natDigitsAux_digits n n [] (by intro c hc; cases hc)

theorem digitsVal_natToString (n : Nat) : digitsVal (natToString n).data = n := by
  unfold natToString
  by_cases h : n = 0
  · subst h; rfl
  · simp only [if_neg h]
    exact digitsVal_natDigitsAux n (Nat.pos_of_ne_zero h) n (Nat.le_refl n)

theorem natToString_ne_nil (n : Nat) : (natToString n).data ≠ [] := by
  intro hnil
  have hv := digitsVal_natToString n
  rw [hnil] at hv
  by_cases h : n = 0
  · subst h
    have : (natToString 0).data = ['0'] := rfl
    rw [this] at hnil
    cases hnil
  · exact h (by simpa [digitsVal] using hv.symm)

theorem parseDigits_natToString (n : Nat) :
    parseDigits (natToString n).data = some n := by
  unfold parseDigits
  have h1 : (natToString n).data.isEmpty = false := by
    cases hd : (natToString n).data with
    | nil => exact absurd hd (natToString_ne_nil n)
    | cons c cs => rfl
  rw [h1]
  have h2 : (natToString n).data.all Char.isDigit = true := by
    rw [List.all_eq_true]
    exact natToString_all_digits n
  rw [h2]
  simp [digitsVal_natToString]

theorem natToString_no_cr (n : Nat) : '\r' ∉ (natToString n).data := by
  intro hmem
  have := natToString_all_digits n '\r' hmem
  simp [Char.isDigit] at this

end WebServer

namespace WebServer

/-! ## findSplit lemmas -/

theorem findSplit_cons_of_ne (pat : List Char) (c : Char) (cs : List Char)
    (h : (c :: cs).take pat.length ≠ pat) :
    findSplit pat (c :: cs)
      = (findSplit pat cs).map fun pr => (c :: pr.1, pr.2) := by
  simp [findSplit, h]

theorem findSplit_here (pat rest : List Char) (h : pat ≠ []) :
    findSplit pat (pat ++ rest) = some ([], rest) := by
  cases pat with
  | nil => exact absurd rfl h
  | cons p ps =>
    have ht : ((p :: ps) ++ rest).take (p :: ps).length = p :: ps := by
      rw [List.cons_append, List.length_cons, List.take_succ_cons, List.take_left]
    have hd : ((p :: ps) ++ rest).drop (p :: ps).length = rest := by
      rw [List.cons_append, List.length_cons, List.drop_succ_cons, List.drop_left]
    rw [List.cons_append]
    rw [List.cons_append] at ht hd
    simp [findSplit, ht, hd]

theorem findSplit_skip (pt : List Char) : ∀ (A : List Char), '\r' ∉ A →
    ∀ cs, findSplit ('\r' :: pt) (A ++ cs)
      = (findSplit ('\r' :: pt) cs).map fun pr => (A ++ pr.1, pr.2) := by
  intro A
  induction A with
  | nil =>
    intro _ cs
    cases h : findSplit ('\r' :: pt) cs <;> simp [h]
  | cons a A ih =>
    intro hA cs
    have ha : a ≠ '\r' := by
      intro h
      exact hA (h ▸ List.mem_cons_self _ _)
    have hA2 : '\r' ∉ A := fun h => hA (List.mem_cons_of_mem _ h)
    rw [List.cons_append]
    rw [findSplit_cons_of_ne _ _ _ ?hcond]
    case hcond =>
      intro hcontra
      rw [List.length_cons, List.take_succ_cons] at hcontra
      exact ha (List.cons.inj hcontra).1
    rw [ih hA2 cs]
    cases h : findSplit ('\r' :: pt) cs <;> simp [h]

theorem findSplit_blank_header (A B body : List Char)
    (hA : '\r' ∉ A) (hB : '\r' ∉ B) (b : Char) (B2 : List Char)
    (hBeq : B = b :: B2) (hb : b ≠ '\r') :
    findSplit ['\r', '\n', '\r', '\n']
        (A ++ ('\r' :: '\n' :: (B ++ ('\r' :: '\n' :: '\r' :: '\n' :: body))))
      = some (A ++ ('\r' :: '\n' :: B), body) := by
  have hcond1 : ('\r' :: '\n' :: (B ++ ('\r' :: '\n' :: '\r' :: '\n' :: body))).take
      (['\r', '\n', '\r', '\n'] : List Char).length ≠ ['\r', '\n', '\r', '\n'] := by
    subst hBeq
    intro hcontra
    simp [List.take_succ_cons] at hcontra
    exact hb hcontra.1
  have hcond2 : ('\n' :: (B ++ ('\r' :: '\n' :: '\r' :: '\n' :: body))).take
      (['\r', '\n', '\r', '\n'] : List Char).length ≠ ['\r', '\n', '\r', '\n'] := by
    intro hcontra
    simp [List.take_succ_cons] at hcontra
  rw [findSplit_skip _ A hA]
  rw [findSplit_cons_of_ne _ _ _ hcond1]
  rw [findSplit_cons_of_ne _ _ _ hcond2]
  rw [show ('\r' :: '\n' :: '\r' :: '\n' :: body)
      = ['\r', '\n', '\r', '\n'] ++ body from rfl]
  rw [findSplit_skip _ B hB]
  rw [findSplit_here _ _ (by decide)]
  simp

theorem findSplit_crlf_header (A B : List Char) (hA : '\r' ∉ A) :
    findSplit ['\r', '\n'] (A ++ ('\r' :: '\n' :: B)) = some (A, B) := by
  rw [findSplit_skip _ A hA]
  rw [show ('\r' :: '\n' :: B) = ['\r', '\n'] ++ B from rfl]
  rw [findSplit_here _ _ (by decide)]
  simp

theorem bytesLen_cons (c : Char) (cs : List Char) :
    bytesLen (c :: cs) = c.utf8Size + bytesLen cs := rfl

theorem takeBytes_all (cs : List Char) : takeBytes (bytesLen cs) cs = cs := by
  induction cs with
  | nil => rfl
  | cons c cs ih =>
    have hpos : 0 < c.utf8Size := Char.utf8Size_pos c
    have hcond : 0 < bytesLen (c :: cs) ∧ c.utf8Size ≤ bytesLen (c :: cs) := by
      rw [bytesLen_cons]
      omega
    simp only [takeBytes, if_pos hcond]
    rw [bytesLen_cons, Nat.add_sub_cancel_left, ih]

end WebServer

namespace WebServer

/-! ## The wire format of `send_response` -/

theorem send_response_data (r : Response) :
    (send_response r).data
      = (r.protocol.data ++ (' ' :: r.status_code.display.data))
        ++ ('\r' :: '\n' ::
            (("Content-Length: ".data ++ (natToString (bytesLen r.body.data)).data)
              ++ ('\r' :: '\n' :: '\r' :: '\n' :: r.body.data))) := by
  unfold send_response
  simp only [String.data_append]
  simp [List.append_assoc]

theorem no_cr_statusline (r : Response) (hp : '\r' ∉ r.protocol.data) :
    '\r' ∉ (r.protocol.data ++ (' ' :: r.status_code.display.data)) := by
  intro hmem
  rcases List.mem_append.mp hmem with h | h
  · exact hp h
  · rcases List.mem_cons.mp h with h | h
    · exact absurd h (by decide)
    · revert h
      cases r.status_code <;> decide

theorem no_cr_lengthline (n : Nat) :
    '\r' ∉ ("Content-Length: ".data ++ (natToString n).data) := by
  intro hmem
  rcases List.mem_append.mp hmem with h | h
  · exact absurd h (by decide)
  · exact natToString_no_cr _ h

/-- Splitting the written response at the first blank line recovers the
header part and exactly the body bytes. -/
theorem send_response_split (r : Response) (hp : '\r' ∉ r.protocol.data) :
    findSplit ['\r', '\n', '\r', '\n'] (send_response r).data
      = some ((r.protocol.data ++ (' ' :: r.status_code.display.data))
          ++ ('\r' :: '\n' :: ("Content-Length: ".data
              ++ (natToString (bytesLen r.body.data)).data)), r.body.data) := by
  rw [send_response_data r]
  exact findSplit_blank_header _ _ _ (no_cr_statusline r hp)
    (no_cr_lengthline (bytesLen r.body.data)) 'C'
    ("ontent-Length: ".data ++ (natToString (bytesLen r.body.data)).data)
    (by rw [show ("Content-Length: " : String).data
          = 'C' :: "ontent-Length: ".data from rfl]
        simp)
    (by decide)

theorem contentLengthOf_send_response (r : Response) (hp : '\r' ∉ r.protocol.data) :
    contentLengthOf (send_response r) = some (bytesLen r.body.data) := by
  unfold contentLengthOf
  simp only [send_response_split r hp,
    findSplit_crlf_header (r.protocol.data ++ (' ' :: r.status_code.display.data))
      ("Content-Length: ".data ++ (natToString (bytesLen r.body.data)).data)
      (no_cr_statusline r hp),
    List.take_left, List.drop_left]
  rw [if_true]
  exact parseDigits_natToString _

theorem reparse_send_response (r : Response) (hp : '\r' ∉ r.protocol.data) :
    reparse (send_response r) = some r.body := by
  unfold reparse
  simp only [send_response_split r hp, contentLengthOf_send_response r hp]
  rw [takeBytes_all]

/-- Claim C2: for every `Response` with protocol `p`, status code `s` and
body `b`, the writer produces exactly
`"{p} {s}\r\nContent-Length: {n}\r\n\r\n{b}"` where `n` is the byte length
of `b` (not its character count), so re-parsing the `Content-Length` bytes
after the blank line yields exactly the body.  (The protocol string of every
response the program builds is `"HTTP/1.1"`, so requiring it to be free of
`'\r'` is vacuous for the program's own responses.) -/
theorem C2_response_writer (r : Response) (hp : '\r' ∉ r.protocol.data) :
    (send_response r).data
      = (r.protocol.data ++ (' ' :: r.status_code.display.data))
        ++ ('\r' :: '\n' ::
            (("Content-Length: ".data ++ (natToString (bytesLen r.body.data)).data)
              ++ ('\r' :: '\n' :: '\r' :: '\n' :: r.body.data))) ∧
    contentLengthOf (send_response r) = some (bytesLen r.body.data) ∧
    reparse (send_response r) = some r.body :=
  ⟨send_response_data r, contentLengthOf_send_response r hp,
   reparse_send_response r hp⟩

/-- Witness for C2, on a multi-byte UTF-8 body: `"héllo"` has 5 characters
but 6 bytes, and the written `Content-Length` is 6, with the round-trip
returning exactly the body. -/
theorem C2_response_writer_witness :
    contentLengthOf (send_response
        { protocol := "HTTP/1.1", status_code := StatusCode.Ok, body := "héllo" })
      = some 6 ∧
    reparse (send_response
        { protocol := "HTTP/1.1", status_code := StatusCode.Ok, body := "héllo" })
      = some "héllo" := by
  have h := C2_response_writer
    { protocol := "HTTP/1.1", status_code := StatusCode.Ok, body := "héllo" }
    (by decide)
  exact ⟨h.2.1.trans (by decide), h.2.2⟩

end WebServer

namespace WebServer

/-- Claim C3: for every request whose path is not registered, the server
logs `No handler found for path: {path}` and sends the default fallback
response: status `Ok` (200, not `NotFound`) with the fallback
(`unknown.html`) content — for any request line and any server table, i.e.
regardless of which or how many distinct unregistered paths are tried. -/
theorem C3_miss_fallback (fs : FS) (s : Server) (line : String)
    (req : Request) (rlogs : List String) (u : String)
    (hread : read_stream line = some (req, rlogs))
    (hmiss : find_endpoint s.endpoints req.path = none)
    (hunknown : fs "unknown.html" = some u) :
    dispatchResult fs s line
      = some (send_response
            { protocol := "HTTP/1.1", status_code := StatusCode.Ok, body := u },
          rlogs ++ ["No handler found for path: " ++ req.path]) := by
  unfold dispatchResult Endpoint.default html_response
  simp only [hread, hmiss, hunknown]

/-- Witness for C3: requesting the unregistered path `/nope` on an empty
table logs the miss and returns the fallback body with status 200. -/
theorem C3_miss_fallback_witness :
    dispatchResult fsHello { endpoints := [] } "GET /nope HTTP/1.1"
      = some ("HTTP/1.1 200 OK\r\nContent-Length: 7\r\n\r\nunknown",
          ["No handler found for path: /nope"]) := by
  have h := C3_miss_fallback fsHello { endpoints := [] } "GET /nope HTTP/1.1"
    { method := HttpMethod.GET, path := "/nope", protocol := "HTTP/1.1",
      body := " " }
    [] "unknown" (by decide) rfl rfl
  exact h.trans (by decide)

/-- Counterexample to claim C4 as stated: the claim says dispatch completes
without aborting for every malformed or empty request line, including a
line with no tokens; but on the empty line `Server::read_stream` reaches
`parts.next().unwrap()` with no tokens and panics, aborting the dispatch
(`none` in the model). -/
theorem C4_counterexample :
    dispatchResult fsHello { endpoints := [] } "" = none := rfl

/-- Claim C4 (amended): for every request line containing at least one
token, dispatch parsing completes without aborting: an unrecognized method
defaults to `GET`, a missing path defaults to `"/"`, and a missing protocol
defaults to `"HTTP/1.1"`, each with a logged warning; but a request line
with no tokens at all (empty or all-whitespace) panics in the parser,
aborting that connection. -/
theorem C4_amended_parse_defaults :
    (∀ line t, splitWhitespace line = [t] →
      t ≠ "GET" → t ≠ "POST" → t ≠ "PUT" → t ≠ "DELETE" →
      read_stream line
        = some ({ method := HttpMethod.GET, path := "/", protocol := "HTTP/1.1",
                  body := " " },
            ["Invalid HTTP method", "Invalid path", "Invalid protocol"])) ∧
    (∀ line t ts, splitWhitespace line = t :: ts →
      (read_stream line).isSome = true) ∧
    (∀ line, splitWhitespace line = [] → read_stream line = none) := by
  refine ⟨?_, ?_, ?_⟩
  · intro line t h h1 h2 h3 h4
    unfold read_stream
    simp only [h]
    simp [h1, h2, h3, h4]
  · intro line t ts h
    unfold read_stream
    simp only [h]
    rfl
  · intro line h
    unfold read_stream
    simp only [h]

/-- Witness for C4 (amended): the single-token line `FOO` parses to the
fully-defaulted request with all three warnings. -/
theorem C4_amended_parse_defaults_witness :
    read_stream "FOO"
      = some ({ method := HttpMethod.GET, path := "/", protocol := "HTTP/1.1",
                body := " " },
          ["Invalid HTTP method", "Invalid path", "Invalid protocol"]) :=
  C4_amended_parse_defaults.1 "FOO" "FOO" (by decide) (by decide) (by decide)
    (by decide) (by decide)

end WebServer

namespace WebServer

/-- File system with only the fallback file present. -/
def fsUnknown : FS := fun n => if n = "unknown.html" then some "unknown" else none

/-- A server with two registered paths holding distinct responses. -/
def serverAB : Server :=
  ⟨[⟨"/a", ⟨"HTTP/1.1", StatusCode.Ok, "A"⟩⟩,
    ⟨"/b", ⟨"HTTP/1.1", StatusCode.Ok, "B"⟩⟩]⟩

/-- Counterexample to claim C5 as stated: the claim says the request-line
read, parsing and route lookup are performed by the worker that executes
the job, never by the listener loop.  But `run_listener_phase` — the code
of `Server::run` executed on the listener thread before `pool.execute`
(lines 80–86 of `server.rs`) — already selects a different handler for
different request paths, so the read, parsing and route lookup happen on
the listener thread. -/
theorem C5_counterexample :
    run_listener_phase fsUnknown serverAB "GET /a HTTP/1.1"
      ≠ run_listener_phase fsUnknown serverAB "GET /b HTTP/1.1" := by decide

/-- Claim C5 (amended): the listener loop itself reads the request line,
parses it and performs the route lookup (including the miss fallback); the
job it submits to the worker pool performs only the response write: a full
dispatch is exactly the listener phase followed by `worker_job`
(= `Server::send_response`) on the selected handler. -/
theorem C5_amended_listener_parses (fs : FS) (s : Server) (line : String) :
    dispatchResult fs s line
      = (run_listener_phase fs s line).map fun pr => (worker_job pr.1, pr.2) := by
  unfold dispatchResult run_listener_phase worker_job
  cases h : read_stream line with
  | none => simp
  | some pr =>
    obtain ⟨req, logs⟩ := pr
    dsimp only
    cases hf : find_endpoint s.endpoints req.path with
    | some hnd => rfl
    | none =>
      dsimp only
      cases hd : Endpoint.default fs with
      | some e => rfl
      | none => rfl

/-- Claim C6: frozen-at-registration semantics.  Registering a route from a
backing file freezes the response into the table: for any request-time file
system `fsReq` (in particular one where the backing file was mutated after
registration), the route still serves the original content read at
registration time; the table entry is never re-read from disk. -/
theorem C6_frozen_content (fsReg fsReq : FS) (s0 s1 : Server) (p file c : String)
    (hp : p ≠ "") (hws : ∀ ch ∈ p.data, rustIsWhitespace ch = false)
    (hfile : fsReg file = some c)
    (hfresh : find_endpoint s0.endpoints p = none)
    (hreg : add_get_endpoint fsReg s0 p file = some s1) :
    dispatch_output fsReq s1 ("GET " ++ p ++ " HTTP/1.1")
      = some ("HTTP/1.1 200 OK\r\nContent-Length: "
          ++ natToString (bytesLen c.data) ++ "\r\n\r\n" ++ c) := by
  simp only [add_get_endpoint, html_response, hfile] at hreg
  have hs1 : s1 = add_endpoint s0 p
      { protocol := "HTTP/1.1", status_code := StatusCode.Ok, body := c } := by
    cases hreg
    rfl
  subst hs1
  unfold dispatch_output dispatchResult
  rw [read_stream_get _ _ (splitWhitespace_request p hp hws)]
  simp only [add_endpoint]
  rw [find_endpoint_append_none _ _ _ hfresh]
  simp only [if_pos rfl]
  rfl

/-- File system at registration time: `file.html` holds `"old"`. -/
def fsOld : FS := fun n => if n = "file.html" then some "old" else none

/-- File system after mutating `file.html` to `"new"`. -/
def fsNew : FS := fun n => if n = "file.html" then some "new" else none

/-- The server produced by registering `/` from `file.html` under `fsOld`. -/
def serverOld : Server := ⟨[⟨"/", ⟨"HTTP/1.1", StatusCode.Ok, "old"⟩⟩]⟩

/-- Witness for C6: after registering under `fsOld` and then mutating the
file (`fsNew` maps `file.html` to `"new"`), the route still serves the
pre-mutation body `old`. -/
theorem C6_frozen_content_witness :
    dispatch_output fsNew serverOld "GET / HTTP/1.1"
      = some "HTTP/1.1 200 OK\r\nContent-Length: 3\r\n\r\nold" := by
  have h := C6_frozen_content fsOld fsNew { endpoints := [] } serverOld
    "/" "file.html" "old" (by decide) (by decide) rfl rfl (by decide)
  exact h.trans (by decide)

end WebServer

namespace WebServer

/-- File system where the registered file exists but `unknown.html` is
missing. -/
def fsNoUnknown : FS := fun n => if n = "page.html" then some "Hi" else none

/-- The server produced by registering `/` from `page.html` under
`fsNoUnknown`. -/
def serverHi : Server := ⟨[⟨"/", ⟨"HTTP/1.1", StatusCode.Ok, "Hi"⟩⟩]⟩

/-- Counterexample to claim C7 as stated: the claim says file-read errors
are confined to registration time and never surface at request time.  But
on every route miss `Server::run` calls `Endpoint::default()`, which
re-reads `unknown.html` at request time and `unwrap`s the result: with
`fsNoUnknown`, registration of `/` succeeds, yet the later request for the
unregistered path `/x` panics (`none`) at request time on that read. -/
theorem C7_counterexample :
    add_get_endpoint fsNoUnknown { endpoints := [] } "/" "page.html"
        = some serverHi ∧
    dispatchResult fsNoUnknown serverHi "GET /x HTTP/1.1" = none :=
  ⟨by decide, by decide⟩

/-- Claim C7 (amended): route registration reads the named file once; on
read failure it falls back to reading `unknown.html`, and registration
fails fatally if and only if the fallback read also fails.  However,
file-read errors are not confined to registration time: the per-miss
fallback re-reads `unknown.html` at request time and can panic there (see
the counterexample). -/
theorem C7_amended_registration_fallback (fs : FS) (file : String) :
    (html_response fs file = none ↔
      (fs file = none ∧ fs "unknown.html" = none)) ∧
    (∀ c, fs file = some c →
      html_response fs file
        = some { protocol := "HTTP/1.1", status_code := StatusCode.Ok,
                 body := c }) ∧
    (∀ u, fs file = none → fs "unknown.html" = some u →
      html_response fs file
        = some { protocol := "HTTP/1.1", status_code := StatusCode.Ok,
                 body := u }) := by
  refine ⟨?_, ?_, ?_⟩
  · unfold html_response
    cases h1 : fs file with
    | some c => simp [h1]
    | none =>
      cases h2 : fs "unknown.html" with
      | some u => simp [h2]
      | none => simp [h2]
  · intro c hc
    unfold html_response
    simp only [hc]
  · intro u hf hu
    unfold html_response
    simp only [hf, hu]

/-- Witness for C7 (amended): under `fsHello`, registering from an existing
file freezes its content, and registering from a missing file falls back to
the `unknown.html` content. -/
theorem C7_amended_registration_fallback_witness :
    html_response fsHello "hello.html"
      = some { protocol := "HTTP/1.1", status_code := StatusCode.Ok,
               body := "Hello" } ∧
    html_response fsHello "missing.html"
      = some { protocol := "HTTP/1.1", status_code := StatusCode.Ok,
               body := "unknown" } :=
  ⟨(C7_amended_registration_fallback fsHello "hello.html").2.1 "Hello" rfl,
   (C7_amended_registration_fallback fsHello "missing.html").2.2 "unknown" rfl rfl⟩

/-- Counterexample to claim C8 as stated: the claim says an accept failure
is logged and skipped and the loop continues.  But `Server::run` calls
`stream.expect("Error reading stream")`, which panics on the first accept
error: a schedule with one failed accept followed by a connection that
would have succeeded serves nothing, while the same schedule without the
failure serves the connection. -/
theorem C8_counterexample :
    run fsHello serverHello [none, some "GET / HTTP/1.1"] = none ∧
    run fsHello serverHello [some "GET / HTTP/1.1"]
      = some ["HTTP/1.1 200 OK\r\nContent-Length: 5\r\n\r\nHello"] :=
  ⟨rfl, by decide⟩

/-- Claim C8 (amended): on any accept failure the listener loop panics
immediately (`stream.expect`), aborting the accept loop: no subsequent
connection of the schedule is served. -/
theorem C8_amended_accept_failure_aborts (fs : FS) (s : Server)
    (rest : List (Option String)) :
    run fs s (none :: rest) = none := rfl

/-- Claim C9 (spec-modelled pool): constructing the worker pool with size
less than 1 (in particular size 0) fails immediately with
`PoolConfigurationError` and starts no threads; on success (size ≥ 1) the
pool starts exactly `size` workers — no silent clamping, no crash.  The
`ThreadPool` implementation is not under `src/`, so it is modelled from the
spec. -/
theorem C9_pool_size (size : Nat) :
    (size < 1 → ThreadPool.new size
        = Except.error PoolError.PoolConfigurationError) ∧
    (∀ tp, ThreadPool.new size = Except.ok tp →
      1 ≤ size ∧ tp.workers.length = size) := by
  constructor
  · intro h
    unfold ThreadPool.new
    rw [if_pos h]
  · intro tp h
    unfold ThreadPool.new at h
    by_cases hs : size < 1
    · rw [if_pos hs] at h
      cases h
    · rw [if_neg hs] at h
      injection h with h
      subst h
      exact ⟨by omega, by simp⟩

/-- Witness for C9: pool size 0 fails with `PoolConfigurationError`. -/
theorem C9_pool_size_witness :
    ThreadPool.new 0 = Except.error PoolError.PoolConfigurationError :=
  (C9_pool_size 0).1 (by decide)

end WebServer

namespace WebServer

/-- Every response `html_response` produces carries status `Ok`. -/
theorem html_response_ok (fs : FS) (file : String) (r : Response)
    (h : html_response fs file = some r) : r.status_code = StatusCode.Ok := by
  unfold html_response at h
  cases h1 : fs file with
  | some c =>
    rw [h1] at h
    cases h
    rfl
  | none =>
    rw [h1] at h
    cases h2 : fs "unknown.html" with
    | some u =>
      rw [h2] at h
      cases h
      rfl
    | none =>
      rw [h2] at h
      cases h

/-- A successful lookup returns the handler of some table entry. -/
theorem find_endpoint_some_mem (es : List Endpoint) (p : String) (r : Response)
    (h : find_endpoint es p = some r) : ∃ e ∈ es, e.handler = r := by
  induction es with
  | nil => cases h
  | cons a es ih =>
    unfold find_endpoint at h
    by_cases hp : p = a.path
    · rw [if_pos hp] at h
      cases h
      exact ⟨a, List.mem_cons_self _ _, rfl⟩
    · rw [if_neg hp] at h
      obtain ⟨e, he, hr⟩ := ih h
      exact ⟨e, List.mem_cons_of_mem _ he, hr⟩

/-- Claim C10: every `Response` the server ever constructs or selects has
status code `Ok` (200): `html_response` — the only `Response` constructor —
always sets `StatusCode.Ok`; registration preserves the all-`Ok` table
invariant; and every response the dispatch pipeline selects (hit, or miss
fallback) has status `Ok`, so `BadRequest`, `NotFound` and
`InternalServerError` are never produced. -/
theorem C10_always_ok :
    (∀ fs file r, html_response fs file = some r →
      r.status_code = StatusCode.Ok) ∧
    (∀ fs s p f s1, add_get_endpoint fs s p f = some s1 →
      (∀ e ∈ s.endpoints, e.handler.status_code = StatusCode.Ok) →
      ∀ e ∈ s1.endpoints, e.handler.status_code = StatusCode.Ok) ∧
    (∀ fs s line r logs,
      (∀ e ∈ s.endpoints, e.handler.status_code = StatusCode.Ok) →
      run_listener_phase fs s line = some (r, logs) →
      r.status_code = StatusCode.Ok) := by
  refine ⟨html_response_ok, ?_, ?_⟩
  · intro fs s p f s1 hreg hs e he
    unfold add_get_endpoint at hreg
    cases hr : html_response fs f with
    | none => rw [hr] at hreg; cases hreg
    | some resp =>
      rw [hr] at hreg
      cases hreg
      unfold add_endpoint at he
      rcases List.mem_append.mp he with h | h
      · exact hs e h
      · rcases List.mem_singleton.mp h with rfl
        exact html_response_ok fs f resp hr
  · intro fs s line r logs hs h
    unfold run_listener_phase at h
    cases hread : read_stream line with
    | none => rw [hread] at h; cases h
    | some pr =>
      rw [hread] at h
      obtain ⟨req, rlogs⟩ := pr
      dsimp only at h
      cases hf : find_endpoint s.endpoints req.path with
      | some hnd =>
        rw [hf] at h
        cases h
        obtain ⟨e, he, hr⟩ := find_endpoint_some_mem _ _ _ hf
        rw [← hr]
        exact hs e he
      | none =>
        rw [hf] at h
        cases hd : Endpoint.default fs with
        | none => rw [hd] at h; cases h
        | some e =>
          rw [hd] at h
          cases h
          unfold Endpoint.default at hd
          cases hu : html_response fs "unknown.html" with
          | none => rw [hu] at hd; cases hd
          | some resp =>
            rw [hu] at hd
            cases hd
            exact html_response_ok fs "unknown.html" resp hu

/-- Witness for C10: the response registered from `hello.html` has status
`Ok`. -/
theorem C10_always_ok_witness :
    ({ protocol := "HTTP/1.1", status_code := StatusCode.Ok,
       body := "Hello" } : Response).status_code = StatusCode.Ok :=
  C10_always_ok.1 fsHello "hello.html"
    { protocol := "HTTP/1.1", status_code := StatusCode.Ok, body := "Hello" } rfl

end WebServer
